import Mathlib

/-
Verification of the apartments price prediction scraper against its
specification.  The definitions below are a shallow embedding of the
Python sources: `src/scraper/card_parser.py` (field extraction),
`src/scraper/url_parser.py` (the recursive pagination walker),
`src/yandex_uploader/export_to_yandex_cloud.py` (CSV export pipeline) and
`src/db/cassandra_uploader.py` (batch insert statistics).  Pure Python
functions become Lean functions; browser interaction is modelled by an
explicit page/world value describing what the page queries would observe;
a Python exception that a function can raise and that its caller catches
is modelled with an `Except` result.
-/

deriving instance DecidableEq for Except

/-! ### Basic string helpers shared by the embeddings -/

/-- Numeric value of a list of decimal digit characters, as produced by the
Python int constructor on a digit string. -/
def digitsToNat (l : List Char) : Nat :=
  l.foldl (fun n c => n * 10 + (c.toNat - '0'.toNat)) 0

/-- Model of the Python str.isdigit method on a list of characters: true
exactly when the string is non-empty and every character is a decimal digit
(restricted to the ASCII digits that occur in the scraped fields). -/
def pyIsdigit (l : List Char) : Bool :=
  !l.isEmpty && l.all Char.isDigit

/-- Model of the Python str.startswith method: s starts with t. -/
def strStartsWith (s t : String) : Bool :=
  s.data.take t.data.length == t.data

/-- Lowercases one character the way the Python str.lower method does on the
alphabets appearing in the scraped labels: ASCII letters and the Cyrillic
letters А..Я and Ё. -/
def charLower (c : Char) : Char :=
  if 'A' ≤ c ∧ c ≤ 'Z' then Char.ofNat (c.toNat + 32)
  else if 'А' ≤ c ∧ c ≤ 'Я' then Char.ofNat (c.toNat + 32)
  else if c = 'Ё' then 'ё'
  else c

/-- Model of the Python str.lower method (see charLower for the alphabets
covered). -/
def pyLower (s : String) : String :=
  String.mk (s.data.map charLower)

/-- Model of the Python str.strip method with no argument: removes leading
and trailing whitespace. -/
def pyStrip (s : String) : String :=
  String.mk (((s.data.dropWhile Char.isWhitespace).reverse.dropWhile Char.isWhitespace).reverse)

/-- Model of the Python expression text.split()[0]: the first maximal run of
non-whitespace characters.  Returns none when the text contains only
whitespace, in which case the Python expression raises IndexError. -/
def firstWordChars : List Char → Option (List Char)
  | [] => none
  | c :: rest =>
    if c.isWhitespace then firstWordChars rest
    else some ((c :: rest).takeWhile (fun x => !x.isWhitespace))

/-- Model of the Python expression re.findall(r'\d+', text) restricted to its
first element: the first maximal run of decimal digits, or none when the text
has no digit. -/
def firstDigitRun : List Char → Option (List Char)
  | [] => none
  | c :: rest =>
    if c.isDigit then some ((c :: rest).takeWhile Char.isDigit)
    else firstDigitRun rest

/-- Modelled from the Python float constructor, restricted to the plain
decimal literals the scraped measurement fields produce: an optional sign
and an integer part and/or a fractional part separated by a single dot.
(Exponent, infinity, nan and underscore forms do not occur in those fields
and are not modelled.)  Returns none where the constructor raises
ValueError. -/
def pyFloat (s : String) : Option ℚ :=
  let signSplit : ℚ × List Char :=
    match s.data with
    | '-' :: r => (-1, r)
    | '+' :: r => (1, r)
    | l => (1, l)
  let ip := signSplit.2.takeWhile Char.isDigit
  let rest := signSplit.2.dropWhile Char.isDigit
  match rest with
  | [] => if ip.isEmpty then none else some (signSplit.1 * (digitsToNat ip : ℚ))
  | '.' :: fp =>
    if fp.all Char.isDigit && (!ip.isEmpty || !fp.isEmpty) then
      some (signSplit.1 * ((digitsToNat ip : ℚ) + (digitsToNat fp : ℚ) / (10 : ℚ) ^ fp.length))
    else none
  | _ => none

/-! ### Embedding of src/scraper/card_parser.py -/

/-- Embedding of parse_price.  The argument is an Option because the Python
parameter may be None; the `if not text` guard maps both None and the empty
string to None.  The function strips every non-digit character and parses the
remainder as an integer; it returns through an Option with no exception
channel because none of re.sub, str.isdigit and int-on-a-digit-string can
raise. -/
def parse_price (text : Option String) : Option Nat :=
  match text with
  | none => none
  | some t =>
    if t = "" then none
    else
      let clean_text := t.data.filter Char.isDigit
      if pyIsdigit clean_text then some (digitsToNat clean_text) else none

/-- Embedding of parse_float_value.  The result is an Except: the error case
models the uncaught IndexError that the Python expression text.split()[0]
raises when the text is non-empty but consists only of whitespace (the
function's try/except only handles ValueError).  The ok-none case models the
None return on empty/None input or a ValueError from the float constructor. -/
def parse_float_value (text : Option String) : Except Unit (Option ℚ) :=
  match text with
  | none => Except.ok none
  | some t =>
    if t = "" then Except.ok none
    else
      match firstWordChars t.data with
      | none => Except.error ()
      | some w => Except.ok (pyFloat (String.mk (w.map (fun c => if c = ',' then '.' else c))))

/-- Embedding of parse_int_value: the first run of digits in the text, or
None when the input is None, empty, or has no digits.  No operation used can
raise. -/
def parse_int_value (text : Option String) : Option Nat :=
  match text with
  | none => none
  | some t =>
    if t = "" then none
    else
      match firstDigitRun t.data with
      | some run => some (digitsToNat run)
      | none => none

/-- Embedding of parse_address: drops the fixed city marker at the start of
the address text when present (the Python slice text[5:] drops the five
characters of that marker). -/
def parse_address (text : Option String) : Option String :=
  match text with
  | none => none
  | some t =>
    if t = "" then none
    else if strStartsWith t "Уфа, " then some (String.mk (t.data.drop 5))
    else some t

/-- The record scrape_offer_details builds (the Python data dict). -/
structure OfferData where
  url : String
  address : Option String
  price_rub : Option Nat
  total_area_sqm : Option ℚ
  living_area_sqm : Option ℚ
  kitchen_area_sqm : Option ℚ
  floor : Option Nat
  floor_total : Option Nat
  ceiling_height_m : Option ℚ
  year_built : Option Nat
  deriving DecidableEq

/-- One highlight container as the extractor observes it: the inner text of
its value and label sub-elements, none when query_selector finds no such
sub-element. -/
structure HighlightContainer where
  valueText : Option String
  labelText : Option String
  deriving DecidableEq

/-- A rendered offer page as scrape_offer_details observes it: whether
navigating to it raises, the inner text of the price and address elements
when those elements exist, and the highlight containers. -/
structure OfferPage where
  navFails : Bool
  priceText : Option String
  addressText : Option String
  highlights : List HighlightContainer

/-- The initial record of scrape_offer_details: every field but the source
url starts out absent. -/
def initData (url : String) : OfferData :=
  { url := url
  , address := none
  , price_rub := none
  , total_area_sqm := none
  , living_area_sqm := none
  , kitchen_area_sqm := none
  , floor := none
  , floor_total := none
  , ceiling_height_m := none
  , year_built := none }

/-- Embedding of one iteration of the highlight loop in scrape_offer_details:
the label is stripped, lowercased and dispatched through the elif chain.  An
error result models an exception escaping the iteration (the IndexError of
parse_float_value), carrying the record as it stood when the exception was
raised; the page-level except clause of scrape_offer_details returns it. -/
def applyHighlight (data : OfferData) (container : HighlightContainer) :
    Except OfferData OfferData :=
  match container.valueText, container.labelText with
  | some value_text, some label_raw =>
    let label_text := pyLower (pyStrip label_raw)
    if label_text = "общая" then
      match parse_float_value (some value_text) with
      | Except.ok v => Except.ok { data with total_area_sqm := v }
      | Except.error _ => Except.error data
    else if label_text = "жилая" then
      match parse_float_value (some value_text) with
      | Except.ok v => Except.ok { data with living_area_sqm := v }
      | Except.error _ => Except.error data
    else if label_text = "кухня" then
      match parse_float_value (some value_text) with
      | Except.ok v => Except.ok { data with kitchen_area_sqm := v }
      | Except.error _ => Except.error data
    else if label_text = "этаж" then
      Except.ok { data with floor := parse_int_value (some value_text) }
    else if label_text = "из 10" ∨ label_text = "этажей" ∨ strStartsWith label_text "из" = true then
      Except.ok { data with floor_total := parse_int_value (some value_text) }
    else if label_text = "потолки" then
      match parse_float_value (some value_text) with
      | Except.ok v => Except.ok { data with ceiling_height_m := v }
      | Except.error _ => Except.error data
    else if label_text = "год постройки" then
      Except.ok { data with year_built := parse_int_value (some value_text) }
    else Except.ok data
  | _, _ => Except.ok data

/-- The highlight loop of scrape_offer_details: containers are processed in
order; an exception in one iteration abandons the remaining containers and
is caught by the page-level except clause, which returns the record as it
stood. -/
def foldHighlights : OfferData → List HighlightContainer → OfferData
  | data, [] => data
  | data, container :: rest =>
    match applyHighlight data container with
    | Except.ok d => foldHighlights d rest
    | Except.error d => d

/-- Embedding of scrape_offer_details: initialize the record with only the
source url, then (unless navigation raises, in which case the except clause
returns the bare record) fill the price, the address and the highlight-driven
fields. -/
def scrape_offer_details (page : OfferPage) (url : String) : OfferData :=
  let data := initData url
  if page.navFails then data
  else
    let data :=
      match page.priceText with
      | some price_text => { data with price_rub := parse_price (some price_text) }
      | none => data
    let data :=
      match page.addressText with
      | some address_text => { data with address := parse_address (some address_text) }
      | none => data
    foldHighlights data page.highlights

/-- Embedding of scrape_offers_details: one record is appended per input
link, in input order; the world function gives the page each link renders
to. -/
def scrape_offers_details (world : String → OfferPage) (links : List String) :
    List OfferData :=
  links.map (fun link => scrape_offer_details (world link) link)

/-! ### Embedding of src/scraper/url_parser.py -/

/-- A character that may occur in a URL scheme after its first letter
(RFC 3986 as implemented by urllib.parse). -/
def isSchemeTailChar (c : Char) : Bool :=
  c.isAlphanum || c == '+' || c == '-' || c == '.'

/-- A character that terminates the netloc component of a URL. -/
def isNetlocEndChar (c : Char) : Bool :=
  c == '/' || c == '?' || c == '#'

/-- Whether urllib.parse.urlparse reads both a scheme and a netloc out of the
string: a non-empty run of scheme characters starting with a letter, followed
by the marker colon-slash-slash. -/
def hasSchemeNetloc (s : String) : Bool :=
  match s.data.takeWhile isSchemeTailChar with
  | [] => false
  | c :: _ =>
    c.isAlpha && ((s.data.dropWhile isSchemeTailChar).take 3 == [':', '/', '/'])

/-- The scheme://netloc part of a URL, empty when the URL has no such part.
This is the part of the base URL that urljoin keeps when resolving a
path-absolute reference. -/
def schemeNetloc (s : String) : String :=
  if hasSchemeNetloc s then
    String.mk (s.data.takeWhile isSchemeTailChar
      ++ ':' :: '/' :: '/' ::
        ((s.data.dropWhile isSchemeTailChar).drop 3).takeWhile (fun x => !isNetlocEndChar x))
  else ""

/-- Modelled from urllib.parse.urljoin, restricted to the reference shapes
the walker produces: an empty reference returns the base; a reference that
itself carries a scheme and netloc is already absolute and is returned as is
(urljoin reassembles it from its parsed components, which is the identity on
the canonical scheme://netloc/path?query URLs at play here); a path-absolute
reference (the item hrefs, which all start with /offer/) is resolved against
the base's scheme://netloc part.  The remaining relative-path merge of
urljoin is never reached by the walker, whose hrefs are filtered to start
with /offer/, and is not modelled. -/
def urljoin (base url : String) : String :=
  if url = "" then base
  else if hasSchemeNetloc url then url
  else if strStartsWith url "/" then schemeNetloc base ++ url
  else base

/-- The part of a URL before the first question mark together with the query
string after it (urllib.parse.urlparse on the fragment-free catalog URLs the
walker handles). -/
def splitQueryChars : List Char → List Char × List Char
  | [] => ([], [])
  | '?' :: rest => ([], rest)
  | c :: rest =>
    let p := splitQueryChars rest
    (c :: p.1, p.2)

/-- Modelled from urllib.parse.parse_qs restricted to the catalog URLs the
walker handles: ampersand-separated key=value pairs, blank values dropped (as
parse_qs does by default), percent-encoding and repeated keys not modelled
(the walker's URLs carry neither). -/
def parseQs (query : String) : List (String × String) :=
  (query.splitOn "&").filterMap (fun kv =>
    match kv.splitOn "=" with
    | [] => none
    | [_] => none
    | k :: rest =>
      let v := String.intercalate "=" rest
      if v = "" then none else some (k, v))

/-- Modelled from urllib.parse.urlencode on a dict of single string values:
ampersand-joined key=value pairs. -/
def encodeQs (ps : List (String × String)) : String :=
  String.intercalate "&" (ps.map (fun p => p.1 ++ "=" ++ p.2))

/-- Model of the Python dict assignment query_params[k] = v on the assoc
list parse_qs produced: the key keeps its position when present, otherwise it
is appended. -/
def setQueryParam : List (String × String) → String → String → List (String × String)
  | [], k, v => [(k, v)]
  | p :: rest, k, v => if p.1 = k then (k, v) :: rest else p :: setQueryParam rest k v

/-- The URL string the walker hands to page.goto for the current page: the
seed URL itself when no page parameter has been set yet, else the seed URL
with its page query parameter set to n (the code rewrites the query with
parse_qs / urlencode / urlunparse; on the fragment-free catalog URLs this is
exactly a rewrite of the query string, the scheme://netloc/path part being
preserved). -/
def pageUrlString (seed : String) (page : Option Nat) : String :=
  match page with
  | none => seed
  | some n =>
    let pq := splitQueryChars seed.data
    String.mk pq.1 ++ "?" ++
      encodeQs (setQueryParam (parseQs (String.mk pq.2)) "page" (toString n))

/-- The outcome of one page visit inside the walker's try block: fail models
any exception from page.goto or from the wait for item-link anchors (both
timeouts and navigation errors); ok carries the href attribute of every
anchor matching the offer-link selector, none for an anchor without an href
attribute. -/
inductive PageFetch where
  | fail
  | ok (hrefs : List (Option String))

/-- The link one anchor contributes: kept only when the href is present,
non-empty and starts with /offer/, and then normalized against the current
page URL (the loop body over query_selector_all in _recursive_scrape_page). -/
def offerLinkUrl (currentUrl : String) (href : Option String) : Option String :=
  match href with
  | none => none
  | some h =>
    if h ≠ "" ∧ strStartsWith h "/offer/" = true then some (urljoin currentUrl h)
    else none

/-- The set of normalized offer links one page contributes. -/
def pageLinks (currentUrl : String) (hrefs : List (Option String)) : Finset String :=
  (hrefs.filterMap (offerLinkUrl currentUrl)).toFinset

/-- Embedding of _recursive_scrape_page.  The world function maps the page
number displayed in the URL to what that page yields; seed is the start URL
and page the value of its page query parameter (none on the seed itself, as
parse_qs reports; the code then displays page number 1).  The collected set
is the Python set of normalized links; the returned list(collected) is
modelled by the set itself.  The next-page number is written as the displayed
number plus one, which is what the code's two branches (2 when the parameter
is absent, parameter plus one otherwise) both compute. -/
def recursiveScrapePage (world : Nat → PageFetch) (seed : String)
    (page : Option Nat) (collected : Finset String) : Finset String :=
  let page_number_display := page.getD 1
  match world page_number_display with
  | PageFetch.fail => collected
  | PageFetch.ok hrefs =>
    let newCollected := collected ∪ pageLinks (pageUrlString seed page) hrefs
    let found_on_this_page := newCollected.card - collected.card
    if found_on_this_page = 0 ∧ 1 < page_number_display then newCollected
    else if _h25 : 25 ≤ page_number_display then newCollected
    else recursiveScrapePage world seed (some (page_number_display + 1)) newCollected
termination_by 25 - page.getD 1
decreasing_by
  simp only [Option.getD_some]
  omega

/-- The page-parameter state the walker has when it visits page i of a crawl
started from the seed: the seed itself for page 1, the rewritten page=i URL
afterwards. -/
def pageOptFor (i : Nat) : Option Nat :=
  if i = 1 then none else some i

/-- The links page i of the crawl contributes (empty when the page fails). -/
def pageLinksAt (world : Nat → PageFetch) (seed : String) (i : Nat) : Finset String :=
  match world i with
  | PageFetch.fail => ∅
  | PageFetch.ok hrefs => pageLinks (pageUrlString seed (pageOptFor i)) hrefs

/-- The links contributed by pages 1..n of the crawl. -/
def linksUpTo (world : Nat → PageFetch) (seed : String) : Nat → Finset String
  | 0 => ∅
  | n + 1 => linksUpTo world seed n ∪ pageLinksAt world seed (n + 1)

/-- A page exhibiting the field-isolation failure of the extractor: the price
text is non-numeric, the address parses, the first highlight has a
whitespace-only value text for the total-area label and the second highlight
is an independently parseable living-area pair. -/
def bugPage : OfferPage :=
  { navFails := false
  , priceText := some "цена по запросу"
  , addressText := some "Уфа, улица Цюрупы, 151"
  , highlights :=
      [ { valueText := some " ", labelText := some "Общая" }
      , { valueText := some "50,1", labelText := some "Жилая" } ] }

/-! ### Embedding of src/yandex_uploader/export_to_yandex_cloud.py -/

/-- The collaborators of export_offers_to_yandex_cloud, as the function
observes them: dfRows is the outcome of create_offers_dataframe_with_districts
(none models a raised exception or a None return, some n a dataframe with n
rows, so n = 0 is the df.empty case); uploadOk is whether
upload_to_yandex_cloud returns True (that call itself catches all its
internal errors and returns a bool); removeOk is whether os.remove succeeds.
save_dataframe_to_csv is assumed to return the snapshot path once the
dataframe exists; an exception there would be caught by the outer handler
before a file is uploaded or deleted, which no claim probes. -/
structure ExportEnv where
  dfRows : Option Nat
  uploadOk : Bool
  removeOk : Bool

/-- What export_offers_to_yandex_cloud did: its boolean return, whether the
local CSV snapshot was written, and whether os.remove deleted it. -/
structure ExportResult where
  success : Bool
  csvCreated : Bool
  csvDeleted : Bool
  deriving DecidableEq

/-- Embedding of export_offers_to_yandex_cloud: build the dataframe (None or
empty aborts with False before any file exists), save the CSV, upload it
(failure returns False with the file left in place), then delete the local
file unless keep_local_file is set; a failing delete only warns and the
function still returns True. -/
def export_offers_to_yandex_cloud (env : ExportEnv) (keep_local_file : Bool) :
    ExportResult :=
  match env.dfRows with
  | none => { success := false, csvCreated := false, csvDeleted := false }
  | some n =>
    if n = 0 then { success := false, csvCreated := false, csvDeleted := false }
    else if !env.uploadOk then { success := false, csvCreated := true, csvDeleted := false }
    else if !keep_local_file then
      { success := true, csvCreated := true, csvDeleted := env.removeOk }
    else { success := true, csvCreated := true, csvDeleted := false }

/-! ### Embedding of src/db/cassandra_uploader.py -/

/-- The statistics dict insert_offers_batch returns. -/
structure InsertStats where
  successful : Nat
  failed : Nat
  total : Nat
  deriving DecidableEq

/-- Embedding of insert_offers_batch: one insert_offer call per offer, in
order, counting successes and failures; insertOffer is the database's
response to each offer (insert_offer catches its own exceptions and returns
a bool).  The progress prints do not affect the counters. -/
def insert_offers_batch (insertOffer : OfferData → Bool) (offers_data : List OfferData) :
    InsertStats :=
  let counts := offers_data.foldl
    (fun acc offer => if insertOffer offer then (acc.1 + 1, acc.2) else (acc.1, acc.2 + 1))
    (0, 0)
  { successful := counts.1, failed := counts.2, total := offers_data.length }

/-- The record an applyHighlight call leaves behind, whether the iteration
returned normally or raised (used to state what a non-matching container
does to a field). -/
def highlightOutcome (data : OfferData) (c : HighlightContainer) : OfferData :=
  match applyHighlight data c with
  | Except.ok d => d
  | Except.error d => d

/-! ### Helper lemmas -/

theorem applyHighlight_url (data : OfferData) (c : HighlightContainer) :
    (match applyHighlight data c with
      | Except.ok d => d
      | Except.error d => d).url = data.url := by
  rcases c with ⟨vt, lb⟩
  cases vt with
  | none => cases lb <;> rfl
  | some v =>
    cases lb with
    | none => rfl
    | some l =>
      simp only [applyHighlight]
      split_ifs <;>
        first
          | rfl
          | (cases hpf : parse_float_value (some v) <;> simp only [hpf])

theorem foldHighlights_url (l : List HighlightContainer) : ∀ data : OfferData,
    (foldHighlights data l).url = data.url := by
  induction l with
  | nil => intro data; rfl
  | cons c rest ih =>
    intro data
    have h := applyHighlight_url data c
    unfold foldHighlights
    cases hac : applyHighlight data c with
    | ok d =>
      simp only [hac] at h ⊢
      rw [ih d, h]
    | error d =>
      simp only [hac] at h ⊢
      exact h

theorem scrape_offer_details_url (page : OfferPage) (url : String) :
    (scrape_offer_details page url).url = url := by
  unfold scrape_offer_details
  by_cases hn : page.navFails
  · simp [hn, initData]
  · cases page.priceText <;> cases page.addressText <;>
      simp [hn, foldHighlights_url, initData]

theorem insert_counts_sum (insertOffer : OfferData → Bool) :
    ∀ (l : List OfferData) (a b : Nat),
      (l.foldl (fun acc offer =>
          if insertOffer offer then (acc.1 + 1, acc.2) else (acc.1, acc.2 + 1)) (a, b)).1
        + (l.foldl (fun acc offer =>
          if insertOffer offer then (acc.1 + 1, acc.2) else (acc.1, acc.2 + 1)) (a, b)).2
        = a + b + l.length := by
  intro l
  induction l with
  | nil => intro a b; simp
  | cons x xs ih =>
    intro a b
    simp only [List.foldl_cons, List.length_cons]
    by_cases hx : insertOffer x = true <;> simp only [hx, Bool.false_eq_true, if_true, if_false,
      ite_true, ite_false, Bool.not_eq_true] <;> rw [ih] <;> omega

theorem takeWhile_append_all {α : Type} (p : α → Bool) :
    ∀ l₁ l₂ : List α, (∀ x ∈ l₁, p x = true) →
      (l₁ ++ l₂).takeWhile p = l₁ ++ l₂.takeWhile p ∧
      (l₁ ++ l₂).dropWhile p = l₂.dropWhile p := by
  intro l₁
  induction l₁ with
  | nil => intro l₂ _; simp
  | cons a l ih =>
    intro l₂ h
    have ha : p a = true := h a (by simp)
    have hrest := ih l₂ (fun x hx => h x (by simp [hx]))
    simp [List.takeWhile_cons, List.dropWhile_cons, ha, hrest.1, hrest.2]

theorem strStartsWith_slash_data {href : String} (h : strStartsWith href "/offer/" = true) :
    ∃ t, href.data = '/' :: t := by
  unfold strStartsWith at h
  have h' : href.data.take ("/offer/".data.length) = "/offer/".data := by
    exact beq_iff_eq.mp h
  cases hd : href.data with
  | nil => rw [hd] at h'; simp at h'
  | cons c t =>
    rw [hd] at h'
    have hlen : ("/offer/".data.length) = 7 := by decide
    rw [hlen] at h'
    rw [List.take_succ_cons] at h'
    exact ⟨t, by rw [List.cons.injEq] at h'; rw [h'.1]⟩

theorem union_card_sub_zero {s t : Finset String} :
    (s ∪ t).card - s.card = 0 ↔ t ⊆ s := by
  constructor
  · intro h
    have hsub : s ⊆ s ∪ t := Finset.subset_union_left
    have hle : (s ∪ t).card ≤ s.card := by omega
    have heq := Finset.eq_of_subset_of_card_le hsub hle
    exact Finset.union_eq_left.mp heq.symm
  · intro h
    rw [Finset.union_eq_left.mpr h]
    omega

theorem pageOptFor_getD (j : Nat) : (pageOptFor j).getD 1 = j := by
  unfold pageOptFor
  by_cases h1 : j = 1
  · rw [if_pos h1, h1]
    rfl
  · rw [if_neg h1]
    rfl

theorem walkInv (world : Nat → PageFetch) (seed : String) (k : Nat)
    (hrefs : Nat → List (Option String))
    (hok : ∀ i, 1 ≤ i → i ≤ k → world i = PageFetch.ok (hrefs i))
    (hnew : ∀ i, 1 < i → i < k → ¬ pageLinksAt world seed i ⊆ linksUpTo world seed (i - 1))
    (hzero : pageLinksAt world seed k ⊆ linksUpTo world seed (k - 1))
    (hk1 : 1 < k) (hk25 : k ≤ 25) :
    ∀ m j, 1 ≤ j → j + m = k →
      recursiveScrapePage world seed (pageOptFor j) (linksUpTo world seed (j - 1)) =
        linksUpTo world seed (k - 1) := by
  intro m
  induction m with
  | zero =>
    intro j hj1 hjk
    have hjeq : j = k := by omega
    subst hjeq
    have hdisp : (pageOptFor j).getD 1 = j := pageOptFor_getD j
    have hw := hok j hj1 (le_refl j)
    have hL : pageLinks (pageUrlString seed (pageOptFor j)) (hrefs j) =
        pageLinksAt world seed j := by
      unfold pageLinksAt
      rw [hw]
    have hCL : linksUpTo world seed (j - 1) ∪ pageLinksAt world seed j =
        linksUpTo world seed (j - 1) :=
      Finset.union_eq_left.mpr hzero
    rw [recursiveScrapePage]
    simp only [hdisp, hw]
    rw [hL, hCL]
    rw [if_pos ⟨by omega, hk1⟩]
  | succ m ih =>
    intro j hj1 hjk
    have hjk' : j < k := by omega
    have hdisp : (pageOptFor j).getD 1 = j := pageOptFor_getD j
    have hw := hok j hj1 (by omega)
    have hL : pageLinks (pageUrlString seed (pageOptFor j)) (hrefs j) =
        pageLinksAt world seed j := by
      unfold pageLinksAt
      rw [hw]
    have hj : j - 1 + 1 = j := by omega
    have hunion : linksUpTo world seed (j - 1) ∪ pageLinksAt world seed j =
        linksUpTo world seed j := by
      calc linksUpTo world seed (j - 1) ∪ pageLinksAt world seed j
          = linksUpTo world seed (j - 1) ∪ pageLinksAt world seed (j - 1 + 1) := by rw [hj]
        _ = linksUpTo world seed (j - 1 + 1) := rfl
        _ = linksUpTo world seed j := by rw [hj]
    rw [recursiveScrapePage]
    simp only [hdisp, hw]
    rw [hL, hunion]
    have hcond : ¬ ((linksUpTo world seed j).card - (linksUpTo world seed (j - 1)).card = 0
        ∧ 1 < j) := by
      by_cases hj1' : j = 1
      · subst hj1'
        simp
      · intro hc
        have hc1 := hc.1
        rw [← hunion] at hc1
        exact hnew j (by omega) hjk' (union_card_sub_zero.mp hc1)
    rw [if_neg hcond]
    have h25 : ¬ (25 ≤ j) := by omega
    rw [dif_neg h25]
    have hnext : (some (j + 1) : Option Nat) = pageOptFor (j + 1) := by
      unfold pageOptFor
      rw [if_neg (by omega : ¬ (j + 1 = 1))]
    rw [hnext]
    simpa using ih (j + 1) (by omega) (by omega)

/-! ### Claim theorems -/

/-- Claim C4: the currency parser maps the text with grouped digits and the
currency sign to the integer 7750000; the empty string and None map to
absent; a string whose digit-only residue is not a parseable integer (that
is, whose residue fails str.isdigit, which on a digit-filtered string means
it is empty) maps to absent.  The embedding is a total function into Option
with no exception channel, which models that parse_price never raises. -/
theorem price_parsing_spec :
    parse_price (some "7 750 000 ₽") = some 7750000 ∧
    parse_price (some "") = none ∧
    parse_price none = none ∧
    ∀ s : String, pyIsdigit (s.data.filter Char.isDigit) = false → parse_price (some s) = none := by
  refine ⟨by decide, rfl, rfl, ?_⟩
  intro s h
  unfold parse_price
  by_cases hs : s = ""
  · simp [hs]
  · simp [hs, h]

/-- Witness for C4 at a concrete non-numeric price text. -/
theorem price_parsing_spec_witness : parse_price (some "цена по запросу") = none :=
  price_parsing_spec.2.2.2 "цена по запросу" (by decide)

/-- Claim C5: the decimal parser maps the comma-decimal measurement text to
12.4 and the integer parser takes the first digit run of its text; both map
empty and None input to absent. -/
theorem measurement_parsing_spec :
    parse_float_value (some "12,4 м²") = Except.ok (some (62/5 : ℚ)) ∧
    parse_int_value (some "10 этаж") = some 10 ∧
    parse_float_value (some "") = Except.ok none ∧
    parse_float_value none = Except.ok none ∧
    parse_int_value (some "") = none ∧
    parse_int_value none = none := by
  refine ⟨?_, by decide, rfl, rfl, rfl, rfl⟩
  have h : parse_float_value (some "12,4 м²") =
      Except.ok (some ((1 : ℚ) * (((12 : Nat) : ℚ) + ((4 : Nat) : ℚ) / (10 : ℚ) ^ (1 : Nat)))) :=
    rfl
  rw [h]
  norm_num

/-- Claim C2 (code bug): on bugPage the price degrades to absent as claimed,
but the whitespace-only total-area value text raises an IndexError inside
parse_float_value (whose try/except only handles ValueError), so the
page-level handler cuts the highlight loop short and the independently
parseable living-area field ("50,1", shown parseable by the last conjunct)
is lost instead of being populated. -/
theorem extractor_field_loss_bug :
    scrape_offer_details bugPage "https://realty.yandex.ru/offer/1/" =
      { initData "https://realty.yandex.ru/offer/1/" with address := some "улица Цюрупы, 151" } ∧
    (scrape_offer_details bugPage "https://realty.yandex.ru/offer/1/").living_area_sqm = none ∧
    parse_float_value (some "50,1") = Except.ok (some (501/10 : ℚ)) := by
  refine ⟨by decide, by decide, ?_⟩
  have h : parse_float_value (some "50,1") =
      Except.ok (some ((1 : ℚ) * (((50 : Nat) : ℚ) + ((1 : Nat) : ℚ) / (10 : ℚ) ^ (1 : Nat)))) :=
    rfl
  rw [h]
  norm_num

/-- Claim C3: the detail fetcher returns one record per input link, in input
order, the i-th record carrying the i-th link as its source url (stated as:
mapping the records to their url field gives back the input list), whatever
each page fetch does — including navigation failures. -/
theorem detail_fetcher_record_per_link (world : String → OfferPage) (links : List String) :
    (scrape_offers_details world links).length = links.length ∧
    (scrape_offers_details world links).map OfferData.url = links := by
  constructor
  · simp [scrape_offers_details]
  · unfold scrape_offers_details
    rw [List.map_map]
    have h : (OfferData.url ∘ fun link => scrape_offer_details (world link) link) =
        fun link : String => link := by
      funext link
      simp [Function.comp, scrape_offer_details_url]
    simp [h]

/-- Claim C9: the export pipeline deletes the local CSV only after a
successful upload and never when keep_local_file is set; on upload failure it
returns False and does not delete the file. -/
theorem export_deletion_policy (env : ExportEnv) (keep_local_file : Bool) :
    ((export_offers_to_yandex_cloud env keep_local_file).csvDeleted = true →
      env.uploadOk = true ∧ keep_local_file = false ∧
        (export_offers_to_yandex_cloud env keep_local_file).success = true) ∧
    (keep_local_file = true →
      (export_offers_to_yandex_cloud env keep_local_file).csvDeleted = false) ∧
    (env.uploadOk = false →
      (export_offers_to_yandex_cloud env keep_local_file).success = false ∧
      (export_offers_to_yandex_cloud env keep_local_file).csvDeleted = false) := by
  obtain ⟨dfRows, uploadOk, removeOk⟩ := env
  unfold export_offers_to_yandex_cloud
  cases dfRows with
  | none => simp
  | some n =>
    by_cases hn : n = 0 <;> cases uploadOk <;> cases keep_local_file <;> cases removeOk <;>
      simp [hn]

/-- Witness for C9: with a five-row dataframe and a failing upload, the run
reports failure and the local snapshot is not deleted. -/
theorem export_deletion_policy_witness :
    (export_offers_to_yandex_cloud
        { dfRows := some 5, uploadOk := false, removeOk := true } false).success = false ∧
    (export_offers_to_yandex_cloud
        { dfRows := some 5, uploadOk := false, removeOk := true } false).csvDeleted = false :=
  (export_deletion_policy { dfRows := some 5, uploadOk := false, removeOk := true } false).2.2 rfl

/-- Claim C1: for a crawl from the seed (no page parameter, displayed page
number 1) in which pages 1..k succeed, each of pages 2..k-1 contributes at
least one new link, and page k (1 < k ≤ 25, so the page is reached before
the safety cap fires) contributes zero new links, the walker stops at page k
and returns exactly the links of pages 1..k-1; and a first page contributing
zero links does not terminate the walk — the walker proceeds to page 2. -/
theorem walker_zero_yield_termination :
    (∀ (world : Nat → PageFetch) (seed : String) (k : Nat)
        (hrefs : Nat → List (Option String)),
      1 < k → k ≤ 25 →
      (∀ i, 1 ≤ i → i ≤ k → world i = PageFetch.ok (hrefs i)) →
      (∀ i, 1 < i → i < k → ¬ pageLinksAt world seed i ⊆ linksUpTo world seed (i - 1)) →
      pageLinksAt world seed k ⊆ linksUpTo world seed (k - 1) →
      recursiveScrapePage world seed none ∅ = linksUpTo world seed (k - 1)) ∧
    (∀ (world : Nat → PageFetch) (seed : String) (hrefs1 : List (Option String)),
      world 1 = PageFetch.ok hrefs1 →
      pageLinks (pageUrlString seed none) hrefs1 = ∅ →
      recursiveScrapePage world seed none ∅ = recursiveScrapePage world seed (some 2) ∅) := by
  constructor
  · intro world seed k hrefs hk1 hk25 hok hnew hzero
    exact walkInv world seed k hrefs hok hnew hzero hk1 hk25 (k - 1) 1 (le_refl 1) (by omega)
  · intro world seed hrefs1 hok1 hzero1
    rw [recursiveScrapePage]
    simp only [Option.getD_none, hok1, hzero1]
    simp

/-- Witness for C1: page 1 yields one offer link, page 2 repeats it (zero new
links), so the walk started from the seed returns exactly the page-1 links. -/
theorem walker_zero_yield_termination_witness :
    recursiveScrapePage
        (fun i => PageFetch.ok (if i = 1 then [some "/offer/111/"] else []))
        "https://realty.yandex.ru/ufa/kupit/kvartira/" none ∅
      = linksUpTo
          (fun i => PageFetch.ok (if i = 1 then [some "/offer/111/"] else []))
          "https://realty.yandex.ru/ufa/kupit/kvartira/" (2 - 1) := by
  exact walker_zero_yield_termination.1
    (fun i => PageFetch.ok (if i = 1 then [some "/offer/111/"] else []))
    "https://realty.yandex.ru/ufa/kupit/kvartira/" 2
    (fun i => if i = 1 then [some "/offer/111/"] else [])
    (by omega) (by omega) (fun i _ _ => rfl)
    (fun i h1 h2 => absurd h1 (by omega))
    (by decide)

/-- Claim C6: whenever the visit of the current page fails (navigation error
or the wait for item-link anchors timing out, both modelled by
PageFetch.fail), the walker returns the links accumulated so far; the catch
is modelled inside the walker, whose Lean embedding is a total function with
no exception channel, so no error reaches the caller. -/
theorem walker_failure_stops (world : Nat → PageFetch) (seed : String)
    (page : Option Nat) (collected : Finset String)
    (hfail : world (page.getD 1) = PageFetch.fail) :
    recursiveScrapePage world seed page collected = collected := by
  rw [recursiveScrapePage]
  simp only [hfail]

/-- Witness for C6: a world whose every page fails makes the walker return
its accumulated set unchanged. -/
theorem walker_failure_stops_witness :
    recursiveScrapePage (fun _ => PageFetch.fail) "https://realty.yandex.ru/ufa/kupit/kvartira/"
      none {"https://realty.yandex.ru/offer/1/"} = {"https://realty.yandex.ru/offer/1/"} :=
  walker_failure_stops _ _ _ _ rfl

/-- Claim C7: a highlight container with both sub-elements present is routed
to the floor-total field exactly when its stripped, lowercased label is the
exact phrase "из 10", the exact word "этажей", or any label starting with
"из"; in that case only the floor_total field changes, and otherwise
floor_total is untouched whatever the container does. -/
theorem floor_total_dispatch (data : OfferData) (value_text label_raw : String) :
    ((pyLower (pyStrip label_raw) = "из 10" ∨ pyLower (pyStrip label_raw) = "этажей" ∨
        strStartsWith (pyLower (pyStrip label_raw)) "из" = true) →
      applyHighlight data { valueText := some value_text, labelText := some label_raw } =
        Except.ok { data with floor_total := parse_int_value (some value_text) }) ∧
    (¬ (pyLower (pyStrip label_raw) = "из 10" ∨ pyLower (pyStrip label_raw) = "этажей" ∨
        strStartsWith (pyLower (pyStrip label_raw)) "из" = true) →
      (highlightOutcome data
          { valueText := some value_text, labelText := some label_raw }).floor_total
        = data.floor_total) := by
  constructor
  · intro hcond
    have h1 : ¬ (pyLower (pyStrip label_raw) = "общая") := by
      rcases hcond with h | h | h
      · rw [h]; decide
      · rw [h]; decide
      · intro he; rw [he] at h; exact absurd h (by decide)
    have h2 : ¬ (pyLower (pyStrip label_raw) = "жилая") := by
      rcases hcond with h | h | h
      · rw [h]; decide
      · rw [h]; decide
      · intro he; rw [he] at h; exact absurd h (by decide)
    have h3 : ¬ (pyLower (pyStrip label_raw) = "кухня") := by
      rcases hcond with h | h | h
      · rw [h]; decide
      · rw [h]; decide
      · intro he; rw [he] at h; exact absurd h (by decide)
    have h4 : ¬ (pyLower (pyStrip label_raw) = "этаж") := by
      rcases hcond with h | h | h
      · rw [h]; decide
      · rw [h]; decide
      · intro he; rw [he] at h; exact absurd h (by decide)
    simp only [applyHighlight]
    rw [if_neg h1, if_neg h2, if_neg h3, if_neg h4, if_pos hcond]
  · intro hcond
    unfold highlightOutcome applyHighlight
    dsimp only
    split_ifs with hc1 hc2 hc3 hc4 hc5 hc6
    · cases hpf : parse_float_value (some value_text) <;> simp [hpf]
    · cases hpf : parse_float_value (some value_text) <;> simp [hpf]
    · cases hpf : parse_float_value (some value_text) <;> simp [hpf]
    · rfl
    · cases hpf : parse_float_value (some value_text) <;> simp [hpf]
    · rfl
    · rfl

/-- Witness for C7: a container labelled with an out-of-N variant (uppercase,
padded) sets exactly the floor-total field. -/
theorem floor_total_dispatch_witness :
    applyHighlight (initData "https://realty.yandex.ru/offer/2/")
        { valueText := some "10", labelText := some " ИЗ 25" } =
      Except.ok { initData "https://realty.yandex.ru/offer/2/" with floor_total := some 10 } := by
  have h := (floor_total_dispatch (initData "https://realty.yandex.ru/offer/2/") "10" " ИЗ 25").1
    (by decide)
  rw [h]
  decide

/-- Claim C8: normalizing an item-link href (the walker only normalizes
hrefs starting with /offer/) against its page URL is idempotent — resolving
the already-normalized absolute URL against the same page URL returns it
unchanged. -/
theorem urljoin_idempotent (base href : String)
    (h : strStartsWith href "/offer/" = true) :
    urljoin base (urljoin base href) = urljoin base href := by
  obtain ⟨t, ht⟩ := strStartsWith_slash_data h
  have hslash : isSchemeTailChar '/' = false := by decide
  have hne : href ≠ "" := by
    intro he
    rw [he] at ht
    simp at ht
  have hsw : strStartsWith href "/" = true := by
    unfold strStartsWith
    rw [ht]
    have hlen : ("/".data.length) = 1 := by decide
    rw [hlen, List.take_succ_cons]
    simp
  have hnsn : hasSchemeNetloc href = false := by
    unfold hasSchemeNetloc
    rw [ht, List.takeWhile_cons]
    simp [hslash]
  have step1 : urljoin base href = schemeNetloc base ++ href := by
    unfold urljoin
    rw [if_neg hne, hnsn, hsw]
    simp
  by_cases hb : hasSchemeNetloc base = true
  case neg =>
    have hb' : hasSchemeNetloc base = false := by
      cases hx : hasSchemeNetloc base
      · rfl
      · exact absurd hx hb
    have hsn : schemeNetloc base = "" := by
      unfold schemeNetloc
      rw [hb']
      simp
    have hempty : ("" : String) ++ href = href := by
      apply String.ext
      rw [String.data_append]
      rfl
    rw [step1, hsn, hempty, step1, hsn]
    exact hempty
  case pos =>
    have hsch : ∃ c cs, base.data.takeWhile isSchemeTailChar = c :: cs := by
      unfold hasSchemeNetloc at hb
      cases htw : base.data.takeWhile isSchemeTailChar with
      | nil => rw [htw] at hb; simp at hb
      | cons c cs => exact ⟨c, cs, rfl⟩
    obtain ⟨c, cs, htw⟩ := hsch
    have hb' := hb
    unfold hasSchemeNetloc at hb'
    rw [htw] at hb'
    simp only [Bool.and_eq_true] at hb'
    have hca : c.isAlpha = true := hb'.1
    have htk3 : (base.data.dropWhile isSchemeTailChar).take 3 = [':', '/', '/'] :=
      beq_iff_eq.mp hb'.2
    set nl := ((base.data.dropWhile isSchemeTailChar).drop 3).takeWhile
      (fun x => !isNetlocEndChar x) with hnl
    have hsn : schemeNetloc base = String.mk ((c :: cs) ++ ':' :: '/' :: '/' :: nl) := by
      unfold schemeNetloc
      rw [hb]
      simp only [if_true, ite_true]
      rw [htw]
    have hAdata : (schemeNetloc base ++ href).data
        = (c :: cs) ++ (':' :: '/' :: '/' :: (nl ++ href.data)) := by
      rw [String.data_append, hsn]
      simp only [List.append_assoc, List.cons_append]
    have hall : ∀ x ∈ (c :: cs), isSchemeTailChar x = true := by
      intro x hx
      rw [← htw] at hx
      exact List.mem_takeWhile_imp hx
    have hsplit := takeWhile_append_all isSchemeTailChar (c :: cs)
      (':' :: '/' :: '/' :: (nl ++ href.data)) hall
    have hcolon : isSchemeTailChar ':' = false := by decide
    have htwA : (schemeNetloc base ++ href).data.takeWhile isSchemeTailChar = c :: cs := by
      rw [hAdata, hsplit.1, List.takeWhile_cons]
      simp [hcolon]
    have hdwA : (schemeNetloc base ++ href).data.dropWhile isSchemeTailChar
        = ':' :: '/' :: '/' :: (nl ++ href.data) := by
      rw [hAdata, hsplit.2, List.dropWhile_cons]
      simp [hcolon]
    have hsnA : hasSchemeNetloc (schemeNetloc base ++ href) = true := by
      unfold hasSchemeNetloc
      rw [htwA, hdwA]
      simp [hca]
    have hAne : schemeNetloc base ++ href ≠ "" := by
      intro he
      have hd : (schemeNetloc base ++ href).data = [] := by rw [he]
      rw [hAdata] at hd
      simp at hd
    rw [step1]
    unfold urljoin
    rw [if_neg hAne, hsnA]
    simp

/-- Witness for C8 at the seed catalog URL and a concrete offer href. -/
theorem urljoin_idempotent_witness :
    urljoin "https://realty.yandex.ru/ufa/kupit/kvartira/"
        (urljoin "https://realty.yandex.ru/ufa/kupit/kvartira/" "/offer/8750304431505540864/")
      = urljoin "https://realty.yandex.ru/ufa/kupit/kvartira/" "/offer/8750304431505540864/" :=
  urljoin_idempotent "https://realty.yandex.ru/ufa/kupit/kvartira/" "/offer/8750304431505540864/"
    (by decide)

/-- Claim C10: the batch-insert statistics satisfy successful + failed =
total = input length, with both counters non-negative (they live in Nat),
for every pattern of per-offer success. -/
theorem batch_stats_invariant (insertOffer : OfferData → Bool) (offers_data : List OfferData) :
    (insert_offers_batch insertOffer offers_data).successful
        + (insert_offers_batch insertOffer offers_data).failed
      = (insert_offers_batch insertOffer offers_data).total ∧
    (insert_offers_batch insertOffer offers_data).total = offers_data.length ∧
    0 ≤ (insert_offers_batch insertOffer offers_data).successful ∧
    0 ≤ (insert_offers_batch insertOffer offers_data).failed := by
  refine ⟨?_, rfl, Nat.zero_le _, Nat.zero_le _⟩
  have h := insert_counts_sum insertOffer offers_data 0 0
  simpa [insert_offers_batch] using h
